import Mathlib

set_option maxRecDepth 4000

/-!
Verification of the protocol engine of `am32_config` (a host-side ESC
configuration tool) against its natural-language specification.

The Python source (`am32_config/am32_config.py`) is shallowly embedded here:
bytes are `Nat` values (0–255), byte strings are `List Nat`, machine
truncation is explicit (`&&& 0xFFFF`, `% 256`), and fallible operations
return `Option`.  Serial I/O is modelled by passing the per-attempt raw
response bytes as a function `Nat → List Nat`; the bytes written to the
serial port are collected in a list so that transmission counts and frame
contents are observable.
-/

/-! ## CRC16/XMODEM (`crc16_xmodem`)

The Python loop keeps `crc` as an unbounded integer and only masks with
`0xFFFF` on return; the embedding mirrors that exactly. -/

/-- One shift step of the Python inner loop:
`if crc & 0x8000: crc = (crc << 1) ^ poly else: crc <<= 1`. -/
def crc16Step (crc : Nat) : Nat :=
  if crc &&& 0x8000 ≠ 0 then (crc <<< 1) ^^^ 0x1021 else crc <<< 1

/-- Processing of one input byte: `crc ^= byte << 8` followed by eight
shift steps (`for _ in range(8)`). -/
def crc16Byte (crc b : Nat) : Nat :=
  (List.range 8).foldl (fun c _ => crc16Step c) (crc ^^^ (b <<< 8))

/-- `crc16_xmodem(data)`: fold over the input bytes starting from 0, with
the final `return crc & 0xFFFF`. -/
def crc16_xmodem (data : List Nat) : Nat :=
  (data.foldl crc16Byte 0) &&& 0xFFFF

/-! Reference definition of CRC-16/XMODEM, written from the spec's words:
polynomial 0x1021, initial value 0, no input/output reflection, MSB-first
bit processing, the register truncated to 16 bits at every step. -/

/-- One MSB-first shift of a 16-bit CRC register with polynomial 0x1021. -/
def crcSpecStep (crc : Nat) : Nat :=
  if crc &&& 0x8000 ≠ 0 then ((crc <<< 1) ^^^ 0x1021) % 65536
  else (crc <<< 1) % 65536

/-- Reference per-byte update: XOR the byte into the high half of the
register, then eight MSB-first shifts. -/
def crcSpecByte (crc b : Nat) : Nat :=
  (List.range 8).foldl (fun c _ => crcSpecStep c) (crc ^^^ (b <<< 8))

/-- Reference CRC-16/XMODEM over a byte sequence, initial value 0. -/
def crc16_spec (data : List Nat) : Nat :=
  data.foldl crcSpecByte 0

lemma and_255_eq_mod (x : Nat) : x &&& 255 = x % 256 := by
  have h : (255 : Nat) = 2 ^ 8 - 1 := by norm_num
  rw [h, Nat.and_pow_two_sub_one_eq_mod]

lemma and_65535_eq_mod (x : Nat) : x &&& 65535 = x % 65536 := by
  have h : (65535 : Nat) = 2 ^ 16 - 1 := by norm_num
  rw [h, Nat.and_pow_two_sub_one_eq_mod]

lemma xor_mod_two_pow (x y n : Nat) :
    (x ^^^ y) % 2 ^ n = (x % 2 ^ n) ^^^ (y % 2 ^ n) := by
  apply Nat.eq_of_testBit_eq
  intro i
  simp only [Nat.testBit_mod_two_pow, Nat.testBit_xor]
  by_cases h : i < n <;> simp [h]

lemma testBit15_mod (c : Nat) : (c % 65536) &&& 0x8000 = c &&& 0x8000 := by
  apply Nat.eq_of_testBit_eq
  intro i
  have h16 : (65536 : Nat) = 2 ^ 16 := by norm_num
  have h15 : (0x8000 : Nat) = 2 ^ 15 := by norm_num
  rw [h16, h15]
  simp only [Nat.testBit_and, Nat.testBit_mod_two_pow, Nat.testBit_two_pow]
  by_cases hi : (15 : Nat) = i
  · subst hi; simp
  · simp [hi]

/-- The per-step truncation commutes: the unbounded Python step agrees,
modulo 2^16, with the 16-bit reference step. -/
lemma crc16Step_mod (c : Nat) :
    crc16Step c % 65536 = crcSpecStep (c % 65536) := by
  unfold crc16Step crcSpecStep
  have hcond : (c % 65536) &&& 0x8000 = c &&& 0x8000 := testBit15_mod c
  have h16 : (65536 : Nat) = 2 ^ 16 := by norm_num
  have hshift : (c <<< 1) % 65536 = ((c % 65536) <<< 1) % 65536 := by
    simp only [Nat.shiftLeft_eq, pow_one]
    omega
  by_cases h : c &&& 0x8000 ≠ 0
  · simp only [h, if_pos, hcond, if_pos h]
    have hx : ((c <<< 1) ^^^ 0x1021) % 65536
        = (((c % 65536) <<< 1) ^^^ 0x1021) % 65536 := by
      rw [h16, xor_mod_two_pow, xor_mod_two_pow, ← h16, hshift]
    simpa using hx
  · simp only [h, if_neg, hcond]
    simp only [ne_eq, not_not] at h
    simp [h, hshift]

lemma crc16Byte_mod (c b : Nat) (hb : b < 256) :
    crc16Byte c b % 65536 = crcSpecByte (c % 65536) b := by
  unfold crc16Byte crcSpecByte
  have hseed : (c ^^^ (b <<< 8)) % 65536 = (c % 65536) ^^^ (b <<< 8) := by
    have h16 : (65536 : Nat) = 2 ^ 16 := by norm_num
    have hblt : b <<< 8 < 65536 := by
      simp only [Nat.shiftLeft_eq]
      omega
    rw [h16, xor_mod_two_pow, ← h16, Nat.mod_eq_of_lt hblt]
  rw [← hseed]
  generalize c ^^^ (b <<< 8) = x
  have main : ∀ (l : List Nat) (x : Nat),
      (l.foldl (fun c _ => crc16Step c) x) % 65536
        = l.foldl (fun c _ => crcSpecStep c) (x % 65536) := by
    intro l
    induction l with
    | nil => intro x; rfl
    | cons hd tl ih =>
      intro x
      simp only [List.foldl_cons]
      rw [ih, crc16Step_mod]
  exact main (List.range 8) x

/-- The Python fold, reduced mod 2^16, coincides with the reference fold. -/
lemma crc16_fold_mod (data : List Nat) (hb : ∀ b ∈ data, b < 256) :
    ∀ c : Nat, (data.foldl crc16Byte c) % 65536 = data.foldl crcSpecByte (c % 65536) := by
  induction data with
  | nil => intro c; rfl
  | cons hd tl ih =>
    intro c
    simp only [List.foldl_cons]
    rw [ih (fun b h => hb b (List.mem_cons_of_mem _ h)),
      crc16Byte_mod c hd (hb hd (List.mem_cons_self _ _))]

/-- C2: `crc16_xmodem` computes CRC16 with polynomial 0x1021, initial value
0, no reflection, MSB-first bit processing, for every byte sequence (it
agrees with the 16-bit reference algorithm built from the spec's words);
and on the standard test vector `b"123456789"` it returns 0x31C3. -/
theorem crc16_xmodem_spec :
    (∀ data : List Nat, (∀ b ∈ data, b < 256) → crc16_xmodem data = crc16_spec data) ∧
      crc16_xmodem [49, 50, 51, 52, 53, 54, 55, 56, 57] = 0x31C3 := by
  constructor
  · intro data hb
    unfold crc16_xmodem crc16_spec
    rw [and_65535_eq_mod, crc16_fold_mod data hb 0]
  · decide

/-- Witness for C2 at a concrete byte sequence. -/
theorem crc16_xmodem_spec_witness :
    crc16_xmodem [0x12, 0x34] = crc16_spec [0x12, 0x34] :=
  crc16_xmodem_spec.1 [0x12, 0x34] (by decide)

/-! ## MSP stream parser (`process_response`)

A direct embedding of the 7-state loop.  The Python locals
(`state`, `message_buffer`, `message_checksum`, `message_length_expected`,
`message_length_received`, `command`) are threaded explicitly; the loop's
early `return` statements become the state-6 results.  `command` is
initialised to `None` in Python but is only read after state 4 has
assigned it, so it is modelled as a `Nat` initialised to 0. -/

def prGo (state : Nat) (buf : List Nat) (chk lenExp lenRecv cmd : Nat) :
    List Nat → Option (Nat × List Nat)
  | [] => none
  | c :: rest =>
    if state = 0 then
      if c = 36 then prGo 1 buf chk lenExp lenRecv cmd rest
      else prGo 0 buf chk lenExp lenRecv cmd rest
    else if state = 1 then
      if c = 77 then prGo 2 buf chk lenExp lenRecv cmd rest
      else prGo 0 buf chk lenExp lenRecv cmd rest
    else if state = 2 then
      if c = 60 ∨ c = 62 ∨ c = 33 then prGo 3 buf chk lenExp lenRecv cmd rest
      else prGo 0 buf chk lenExp lenRecv cmd rest
    else if state = 3 then
      prGo 4 (List.replicate c 0) c c lenRecv cmd rest
    else if state = 4 then
      if lenExp > 0 then prGo 5 buf (chk ^^^ c) lenExp lenRecv c rest
      else prGo 6 buf (chk ^^^ c) lenExp lenRecv c rest
    else if state = 5 then
      if lenRecv + 1 ≥ lenExp then
        prGo 6 (buf.set lenRecv c) (chk ^^^ c) lenExp (lenRecv + 1) cmd rest
      else
        prGo 5 (buf.set lenRecv c) (chk ^^^ c) lenExp (lenRecv + 1) cmd rest
    else
      if chk = c then some (cmd, buf) else none

/-- `process_response(data)`: parse one buffer from the initial state,
returning `(command, payload)` or `None`. -/
def processResponse (data : List Nat) : Option (Nat × List Nat) :=
  prGo 0 [] 0 0 0 0 data

/-- XOR of a list of bytes (the MSP checksum accumulator, seeded with 0). -/
def xorAll (l : List Nat) : Nat := l.foldl (fun a b => a ^^^ b) 0

/-- The MSP frame checksum: running XOR of the length byte, the command
byte and every payload byte, in that order. -/
def mspChecksum (cmd : Nat) (payload : List Nat) : Nat :=
  payload.foldl (fun a b => a ^^^ b) (payload.length ^^^ cmd)

/-- An MSP frame with an arbitrary final checksum byte `cb`:
preamble `$`,`M`, direction byte, length byte, command byte, payload, `cb`. -/
def mspFrameWith (dir cmd : Nat) (payload : List Nat) (cb : Nat) : List Nat :=
  36 :: 77 :: dir :: payload.length :: cmd :: (payload ++ [cb])

/-- A well-formed MSP frame (checksum byte correct). -/
def mspFrame (dir cmd : Nat) (payload : List Nat) : List Nat :=
  mspFrameWith dir cmd payload (mspChecksum cmd payload)

/-- Successive writes `buf[k] := p.head`, `buf[k+1] := ...`, as performed
by state 5 of the parser. -/
def setFrom (buf : List Nat) (k : Nat) : List Nat → List Nat
  | [] => buf
  | c :: cs => setFrom (buf.set k c) (k + 1) cs

lemma foldl_xor_eq (l : List Nat) : ∀ c : Nat,
    l.foldl (fun a b => a ^^^ b) c = c ^^^ xorAll l := by
  induction l with
  | nil => intro c; simp [xorAll]
  | cons hd tl ih =>
    intro c
    simp only [List.foldl_cons, xorAll] at ih ⊢
    rw [ih (c ^^^ hd), ih (0 ^^^ hd)]
    simp [Nat.xor_assoc]

lemma xorAll_cons (hd : Nat) (tl : List Nat) :
    xorAll (hd :: tl) = hd ^^^ xorAll tl := by
  simp only [xorAll, List.foldl_cons]
  rw [foldl_xor_eq]
  simp [xorAll]

lemma setFrom_eq (p : List Nat) : ∀ (buf : List Nat) (k : Nat),
    k + p.length ≤ buf.length →
    setFrom buf k p = buf.take k ++ p ++ buf.drop (k + p.length) := by
  induction p with
  | nil =>
    intro buf k _
    simp [setFrom, List.take_append_drop]
  | cons hd tl ih =>
    intro buf k h
    simp only [List.length_cons] at h
    have hk : k < buf.length := by omega
    simp only [setFrom]
    rw [ih (buf.set k hd) (k + 1) (by simp [List.length_set]; omega)]
    rw [List.set_eq_take_cons_drop hd hk]
    have htake : (buf.take k ++ hd :: buf.drop (k + 1)).take (k + 1)
        = buf.take k ++ [hd] := by
      have hlt : (buf.take k).length = k := List.length_take_of_le (Nat.le_of_lt hk)
      rw [show k + 1 = (buf.take k).length + 1 by rw [hlt]]
      rw [List.take_append]
      simp
    have hdrop : (buf.take k ++ hd :: buf.drop (k + 1)).drop (k + 1 + tl.length)
        = buf.drop (k + (tl.length + 1)) := by
      have hlt : (buf.take k).length = k := List.length_take_of_le (Nat.le_of_lt hk)
      rw [show k + 1 + tl.length = (buf.take k).length + (tl.length + 1) by omega]
      rw [List.drop_append]
      simp only [List.drop_succ_cons, List.drop_drop]
      congr 1
      omega
    rw [htake, hdrop]
    simp [List.append_assoc]

lemma prGo_state5_run (p : List Nat) : ∀ (buf : List Nat) (chk lenExp lenRecv cmd : Nat)
    (rest : List Nat), lenRecv + p.length = lenExp → p ≠ [] →
    prGo 5 buf chk lenExp lenRecv cmd (p ++ rest)
      = prGo 6 (setFrom buf lenRecv p) (p.foldl (fun a b => a ^^^ b) chk)
          lenExp lenExp cmd rest := by
  induction p with
  | nil => intro _ _ _ _ _ _ _ hne; exact absurd rfl hne
  | cons hd tl ih =>
    intro buf chk lenExp lenRecv cmd rest hlen _
    simp only [List.length_cons] at hlen
    by_cases htl : tl = []
    · subst htl
      simp only [List.length_nil] at hlen
      have h5 : lenExp = lenRecv + 1 := by omega
      subst h5
      simp only [List.cons_append, List.nil_append, prGo]
      norm_num
      simp [setFrom]
    · have hlt : ¬ lenRecv + 1 ≥ lenExp := by
        have : tl.length > 0 := List.length_pos.mpr htl
        omega
      simp only [List.cons_append, prGo]
      norm_num
      rw [if_neg hlt]
      rw [ih (buf.set lenRecv hd) (chk ^^^ hd) lenExp (lenRecv + 1) cmd rest
        (by omega) htl]
      rfl

lemma prGo_step0 (buf : List Nat) (chk lE lR cmd : Nat) (rest : List Nat) :
    prGo 0 buf chk lE lR cmd (36 :: rest) = prGo 1 buf chk lE lR cmd rest := by
  simp [prGo]

lemma prGo_step1 (buf : List Nat) (chk lE lR cmd : Nat) (rest : List Nat) :
    prGo 1 buf chk lE lR cmd (77 :: rest) = prGo 2 buf chk lE lR cmd rest := by
  simp [prGo]

lemma prGo_step2 (dir : Nat) (hdir : dir = 60 ∨ dir = 62 ∨ dir = 33)
    (buf : List Nat) (chk lE lR cmd : Nat) (rest : List Nat) :
    prGo 2 buf chk lE lR cmd (dir :: rest) = prGo 3 buf chk lE lR cmd rest := by
  rcases hdir with h | h | h <;> subst h <;> simp [prGo]

lemma prGo_step3 (c : Nat) (buf : List Nat) (chk lE lR cmd : Nat) (rest : List Nat) :
    prGo 3 buf chk lE lR cmd (c :: rest) = prGo 4 (List.replicate c 0) c c lR cmd rest := by
  simp [prGo]

lemma prGo_step4 (c : Nat) (buf : List Nat) (chk lE lR cmd : Nat) (rest : List Nat) :
    prGo 4 buf chk lE lR cmd (c :: rest)
      = if lE > 0 then prGo 5 buf (chk ^^^ c) lE lR c rest
        else prGo 6 buf (chk ^^^ c) lE lR c rest := by
  simp [prGo]

lemma prGo_step6 (c : Nat) (buf : List Nat) (chk lE lR cmd : Nat) (rest : List Nat) :
    prGo 6 buf chk lE lR cmd (c :: rest)
      = if chk = c then some (cmd, buf) else none := by
  simp [prGo]

/-- Full run of the parser over one frame-shaped buffer (with arbitrary
trailing bytes after the checksum byte): it reaches state 6 and compares
the accumulated XOR with the frame's checksum byte. -/
lemma processResponse_frame (dir cmd : Nat) (payload : List Nat) (cb : Nat)
    (rest : List Nat) (hdir : dir = 60 ∨ dir = 62 ∨ dir = 33) :
    processResponse (36 :: 77 :: dir :: payload.length :: cmd :: (payload ++ cb :: rest))
      = if payload.foldl (fun a b => a ^^^ b) (payload.length ^^^ cmd) = cb
        then some (cmd, payload) else none := by
  unfold processResponse
  rw [prGo_step0, prGo_step1, prGo_step2 dir hdir, prGo_step3, prGo_step4]
  by_cases hlen : payload.length > 0
  · rw [if_pos hlen]
    rcases List.exists_cons_of_ne_nil
      (show payload ≠ [] from fun h => by rw [h] at hlen; simp at hlen) with ⟨hd, tl, hp⟩
    subst hp
    rw [prGo_state5_run (hd :: tl) _ _ _ _ _ _ (by simp) (by simp)]
    rw [setFrom_eq _ _ _ (by simp)]
    have hdrop : (List.replicate (hd :: tl).length 0).drop (0 + (hd :: tl).length) = [] :=
      List.drop_eq_nil_of_le (by simp)
    rw [hdrop, prGo_step6]
    simp
  · rw [if_neg hlen]
    have hp : payload = [] := by
      rcases payload with _ | ⟨h, t⟩
      · rfl
      · simp at hlen
    subst hp
    simp only [List.nil_append]
    rw [prGo_step6]
    simp

lemma nat_xor_left_comm (a b c : Nat) : a ^^^ (b ^^^ c) = b ^^^ (a ^^^ c) := by
  rw [← Nat.xor_assoc, Nat.xor_comm a b, Nat.xor_assoc]

lemma xorAll_set (p : List Nat) : ∀ (i b : Nat), i < p.length →
    xorAll (p.set i b) = (xorAll p ^^^ p.getD i 0) ^^^ b := by
  induction p with
  | nil => intro i b h; simp at h
  | cons hd tl ih =>
    intro i b h
    cases i with
    | zero =>
      simp only [List.set_cons_zero, List.getD_cons_zero, xorAll_cons]
      simp [Nat.xor_assoc, Nat.xor_comm, nat_xor_left_comm, Nat.xor_cancel_left,
        Nat.xor_self, Nat.xor_zero, Nat.zero_xor]
    | succ i =>
      simp only [List.set_cons_succ, List.getD_cons_succ, xorAll_cons]
      rw [ih i b (by simp at h; omega)]
      simp [Nat.xor_assoc, Nat.xor_comm, nat_xor_left_comm, Nat.xor_cancel_left,
        Nat.xor_self, Nat.xor_zero, Nat.zero_xor]

lemma xor_left_cancel_ne {x a b : Nat} (h : a ≠ b) : x ^^^ a ≠ x ^^^ b := by
  intro hEq
  exact h (Nat.xor_right_injective hEq)

/-- C3: for every valid MSP frame, changing any single payload byte to a
different value, or changing the checksum byte to a different value,
makes `process_response` return `None` for the altered buffer — the
corrupted payload is never returned. -/
theorem msp_single_corruption_rejected
    (dir cmd : Nat) (payload : List Nat)
    (hdir : dir = 60 ∨ dir = 62 ∨ dir = 33)
    (hcmd : cmd < 256) (hlen : payload.length ≤ 255)
    (hbytes : ∀ b ∈ payload, b < 256) :
    (∀ i b, i < payload.length → b < 256 → b ≠ payload.getD i 0 →
      processResponse (mspFrameWith dir cmd (payload.set i b) (mspChecksum cmd payload))
        = none) ∧
    (∀ cb, cb ≠ mspChecksum cmd payload →
      processResponse (mspFrameWith dir cmd payload cb) = none) := by
  constructor
  · intro i b hi hb hne
    unfold mspFrameWith
    rw [show (payload.set i b) ++ [mspChecksum cmd payload]
        = (payload.set i b) ++ mspChecksum cmd payload :: [] from rfl]
    rw [processResponse_frame dir cmd (payload.set i b) _ [] hdir]
    rw [if_neg]
    rw [foldl_xor_eq, List.length_set]
    unfold mspChecksum
    rw [foldl_xor_eq]
    apply xor_left_cancel_ne
    rw [xorAll_set payload i b hi]
    intro hEq
    apply hne
    have h2 : (xorAll payload ^^^ payload.getD i 0) ^^^ b
        = (xorAll payload ^^^ payload.getD i 0) ^^^ payload.getD i 0 := by
      rw [hEq, Nat.xor_assoc, Nat.xor_self, Nat.xor_zero]
    exact Nat.xor_right_injective h2
  · intro cb hcb
    unfold mspFrameWith
    rw [show payload ++ [cb] = payload ++ cb :: [] from rfl]
    rw [processResponse_frame dir cmd payload cb [] hdir]
    rw [if_neg]
    exact fun hEq => hcb (by rw [← hEq]; rfl)

/-- Witness for C3 at a concrete frame: payload byte 0 of `[7, 9]` changed
to 8, and checksum byte changed to 0. -/
theorem msp_single_corruption_rejected_witness :
    processResponse (mspFrameWith 60 1 ([7, 9].set 0 8) (mspChecksum 1 [7, 9])) = none ∧
    processResponse (mspFrameWith 60 1 [7, 9] 0) = none :=
  ⟨(msp_single_corruption_rejected 60 1 [7, 9] (by norm_num) (by norm_num) (by norm_num)
      (by decide)).1 0 8 (by norm_num) (by norm_num) (by decide),
   (msp_single_corruption_rejected 60 1 [7, 9] (by norm_num) (by norm_num) (by norm_num)
      (by decide)).2 0 (by decide)⟩

/-- C4 counterexample: a buffer holding a checksum-corrupted frame
(`$M>` len 1 cmd 100 payload [7], checksum byte 99 instead of 98)
followed by a complete valid frame (`$M<` len 0 cmd 101 checksum 101)
makes `process_response` return `None`; the later valid frame is NOT
emitted, although on its own it parses fine. -/
theorem msp_mismatch_no_resync_counterexample :
    processResponse ([36, 77, 62, 1, 100, 7, 99] ++ [36, 77, 60, 0, 101, 101]) = none ∧
    processResponse [36, 77, 60, 0, 101, 101] = some (101, []) := by
  constructor
  · decide
  · decide

/-- C4 (amended): when the checksum byte does not match the accumulated
checksum, `process_response` reports the mismatch and returns `None` for
the entire buffer immediately — it does not return to the seek state, so
any frame after the corrupted one (any trailing bytes at all) is lost. -/
theorem msp_mismatch_aborts_whole_buffer
    (dir cmd : Nat) (payload : List Nat) (cb : Nat) (rest : List Nat)
    (hdir : dir = 60 ∨ dir = 62 ∨ dir = 33)
    (hcb : cb ≠ mspChecksum cmd payload) :
    processResponse (mspFrameWith dir cmd payload cb ++ rest) = none := by
  unfold mspFrameWith
  rw [show (36 :: 77 :: dir :: payload.length :: cmd :: (payload ++ [cb])) ++ rest
      = 36 :: 77 :: dir :: payload.length :: cmd :: (payload ++ cb :: rest) by simp]
  rw [processResponse_frame dir cmd payload cb rest hdir]
  rw [if_neg]
  exact fun hEq => hcb (by rw [← hEq]; rfl)

/-- Witness for C4's amended theorem: the corrupted frame of the
counterexample followed by a valid frame yields `None`. -/
theorem msp_mismatch_aborts_whole_buffer_witness :
    processResponse (mspFrameWith 62 100 [7] 99 ++ [36, 77, 60, 0, 101, 101]) = none :=
  msp_mismatch_aborts_whole_buffer 62 100 [7] 99 [36, 77, 60, 0, 101, 101]
    (by norm_num) (by decide)

/-! ## Four-way frame codec (`process_four_way_response`,
frame construction in `send_four_way_command`) -/

/-- Splitting a 16-bit value into high/low bytes (as the encoder does) and
recombining them (as the decoder does) is the identity below 2^16. -/
lemma combine16 (a : Nat) (h : a < 65536) :
    (((a >>> 8) &&& 255) <<< 8) ||| (a &&& 255) = a := by
  apply Nat.eq_of_testBit_eq
  intro i
  have h255 : (255 : Nat) = 2 ^ 8 - 1 := by norm_num
  rw [h255]
  simp only [Nat.testBit_lor, Nat.testBit_shiftLeft, Nat.testBit_and,
    Nat.testBit_shiftRight, Nat.testBit_two_pow_sub_one]
  by_cases h8 : 8 ≤ i
  · by_cases h16 : i < 16
    · have hi : 8 + (i - 8) = i := by omega
      simp [h8, hi, show i - 8 < 8 by omega, show ¬ i < 8 by omega]
    · have hbit : a.testBit i = false := Nat.testBit_lt_two_pow (by
        calc a < 65536 := h
        _ = 2 ^ 16 := by norm_num
        _ ≤ 2 ^ i := Nat.pow_le_pow_right (by norm_num) (by omega))
      have hi : 8 + (i - 8) = i := by omega
      simp [h8, hi, hbit, show ¬ i - 8 < 8 by omega, show ¬ i < 8 by omega]
  · simp [h8, show i < 8 by omega]

lemma crc16_lt (d : List Nat) : crc16_xmodem d < 65536 := by
  unfold crc16_xmodem
  have h := Nat.and_le_right (n := d.foldl crc16Byte 0) (m := 0xFFFF)
  omega

/-- The decoded four-way message dictionary. -/
structure FourWayMsg where
  command : Nat
  address : Nat
  ack : Nat
  checksum : Nat
  params : List Nat

deriving instance DecidableEq for FourWayMsg

/-- The decoder's `param_count` local: the count byte `data[4]`, with a
byte of 0 standing for 256. -/
def fourWayParamCount (data : List Nat) : Nat :=
  if data.getD 4 0 = 0 then 256 else data.getD 4 0

/-- `process_four_way_response(data)`.  Byte reads `data[i]` are modelled
with `getD i 0`; every read the Python code performs is guarded by the two
length checks, so the default is never observable. -/
def processFourWayResponse (data : List Nat) : Option FourWayMsg :=
  if data.length < 9 then none
  else
    let paramCount := fourWayParamCount data
    if data.length < 8 + paramCount then none
    else
      let msg : FourWayMsg :=
        { command := data.getD 1 0
          address := (data.getD 2 0 <<< 8) ||| data.getD 3 0
          ack := data.getD (5 + paramCount) 0
          checksum := (data.getD (6 + paramCount) 0 <<< 8) ||| data.getD (7 + paramCount) 0
          params := (data.drop 5).take paramCount }
      if crc16_xmodem (data.take (6 + paramCount)) ≠ msg.checksum then none
      else some msg

/-- The count byte written at `buffer_out[4]`:
`len(params) if len(params) < 256 else 0`. -/
def fourWayCountByte (params : List Nat) : Nat :=
  if params.length < 256 then params.length else 0

/-- The first `5 + len(params)` bytes of the request frame built inside
`send_four_way_command` (everything the CRC is computed over,
`buffer_out[:-2]`). -/
def fourWayRequestBody (cmd addr : Nat) (params : List Nat) : List Nat :=
  0x2F :: cmd :: ((addr >>> 8) &&& 0xFF) :: (addr &&& 0xFF)
    :: fourWayCountByte params :: params

/-- The full request frame `buffer_out`: body followed by the CRC16 high
and low bytes. -/
def fourWayRequestFrame (cmd addr : Nat) (params : List Nat) : List Nat :=
  fourWayRequestBody cmd addr params
    ++ [(crc16_xmodem (fourWayRequestBody cmd addr params) >>> 8) &&& 0xFF,
        crc16_xmodem (fourWayRequestBody cmd addr params) &&& 0xFF]

/-- The response wire format consumed by `process_four_way_response`:
sentinel, command, address high/low, count byte, parameters, ack byte —
this prefix is what the CRC covers — then CRC high/low. -/
def fourWayResponseBody (cmd addr : Nat) (params : List Nat) (ack : Nat) : List Nat :=
  0x2F :: cmd :: ((addr >>> 8) &&& 0xFF) :: (addr &&& 0xFF)
    :: fourWayCountByte params :: (params ++ [ack])

/-- A well-formed response frame: body followed by its CRC16 high/low. -/
def fourWayResponseFrame (cmd addr : Nat) (params : List Nat) (ack : Nat) : List Nat :=
  fourWayResponseBody cmd addr params ack
    ++ [(crc16_xmodem (fourWayResponseBody cmd addr params ack) >>> 8) &&& 0xFF,
        crc16_xmodem (fourWayResponseBody cmd addr params ack) &&& 0xFF]

lemma getD_append_right_len (l₁ l₂ : List Nat) (k : Nat) (h : l₁.length ≤ k) :
    (l₁ ++ l₂).getD k 0 = l₂.getD (k - l₁.length) 0 := by
  simp only [List.getD_eq_getElem?_getD, List.getElem?_append_right h]

lemma getD_append_left_len (l₁ l₂ : List Nat) (k : Nat) (h : k < l₁.length) :
    (l₁ ++ l₂).getD k 0 = l₁.getD k 0 := by
  simp only [List.getD_eq_getElem?_getD, List.getElem?_append_left h]

lemma fourWayParamCount_header (cmd addr : Nat) (params : List Nat) (tail : List Nat)
    (h1 : 1 ≤ params.length) (h2 : params.length ≤ 256) :
    fourWayParamCount
        ([47, cmd, (addr >>> 8) &&& 255, addr &&& 255, fourWayCountByte params] ++ tail)
      = params.length := by
  have hget : ([47, cmd, (addr >>> 8) &&& 255, addr &&& 255, fourWayCountByte params]
      ++ tail).getD 4 0 = fourWayCountByte params := by
    rw [getD_append_left_len _ _ 4 (by simp)]
    rfl
  unfold fourWayParamCount
  rw [hget]
  unfold fourWayCountByte
  by_cases h : params.length < 256
  · rw [if_pos h, if_neg (by omega)]
  · have h256 : params.length = 256 := by omega
    rw [if_neg h, if_pos rfl, h256]

lemma fourWayResponseFrame_shape (cmd addr : Nat) (params : List Nat) (ack : Nat) :
    fourWayResponseFrame cmd addr params ack
      = [47, cmd, (addr >>> 8) &&& 255, addr &&& 255, fourWayCountByte params]
        ++ (params
          ++ [ack, (crc16_xmodem (fourWayResponseBody cmd addr params ack) >>> 8) &&& 255,
              crc16_xmodem (fourWayResponseBody cmd addr params ack) &&& 255]) := by
  simp [fourWayResponseFrame, fourWayResponseBody]

/-- Decoding a well-formed response frame yields exactly the encoded
command, address, ack and parameter list (the central positive fact about
the four-way codec pair). -/
lemma processFourWayResponse_responseFrame (cmd addr ack : Nat) (params : List Nat)
    (h1 : 1 ≤ params.length) (h2 : params.length ≤ 256) (haddr : addr < 65536) :
    processFourWayResponse (fourWayResponseFrame cmd addr params ack)
      = some { command := cmd, address := addr, ack := ack,
               checksum := crc16_xmodem (fourWayResponseBody cmd addr params ack),
               params := params } := by
  rw [fourWayResponseFrame_shape]
  have hlen : ([47, cmd, (addr >>> 8) &&& 255, addr &&& 255, fourWayCountByte params]
      ++ (params
        ++ [ack, (crc16_xmodem (fourWayResponseBody cmd addr params ack) >>> 8) &&& 255,
            crc16_xmodem (fourWayResponseBody cmd addr params ack) &&& 255])).length
      = 8 + params.length := by
    simp
    omega
  have hpc := fourWayParamCount_header cmd addr params
    (params
      ++ [ack, (crc16_xmodem (fourWayResponseBody cmd addr params ack) >>> 8) &&& 255,
          crc16_xmodem (fourWayResponseBody cmd addr params ack) &&& 255]) h1 h2
  simp only [processFourWayResponse]
  rw [hlen, hpc]
  rw [if_neg (by omega : ¬ 8 + params.length < 9)]
  rw [if_neg (by omega : ¬ 8 + params.length < 8 + params.length)]
  have hcmd1 : ([47, cmd, (addr >>> 8) &&& 255, addr &&& 255, fourWayCountByte params]
      ++ (params
        ++ [ack, (crc16_xmodem (fourWayResponseBody cmd addr params ack) >>> 8) &&& 255,
            crc16_xmodem (fourWayResponseBody cmd addr params ack) &&& 255])).getD 1 0
      = cmd := by
    rw [getD_append_left_len _ _ 1 (by simp)]
    rfl
  have haddr2 : ([47, cmd, (addr >>> 8) &&& 255, addr &&& 255, fourWayCountByte params]
      ++ (params
        ++ [ack, (crc16_xmodem (fourWayResponseBody cmd addr params ack) >>> 8) &&& 255,
            crc16_xmodem (fourWayResponseBody cmd addr params ack) &&& 255])).getD 2 0
      = (addr >>> 8) &&& 255 := by
    rw [getD_append_left_len _ _ 2 (by simp)]
    rfl
  have haddr3 : ([47, cmd, (addr >>> 8) &&& 255, addr &&& 255, fourWayCountByte params]
      ++ (params
        ++ [ack, (crc16_xmodem (fourWayResponseBody cmd addr params ack) >>> 8) &&& 255,
            crc16_xmodem (fourWayResponseBody cmd addr params ack) &&& 255])).getD 3 0
      = addr &&& 255 := by
    rw [getD_append_left_len _ _ 3 (by simp)]
    rfl
  have hack : ([47, cmd, (addr >>> 8) &&& 255, addr &&& 255, fourWayCountByte params]
      ++ (params
        ++ [ack, (crc16_xmodem (fourWayResponseBody cmd addr params ack) >>> 8) &&& 255,
            crc16_xmodem (fourWayResponseBody cmd addr params ack) &&& 255])).getD
        (5 + params.length) 0 = ack := by
    rw [getD_append_right_len _ _ _ (by simp only [List.length_cons, List.length_nil]; omega)]
    rw [show 5 + params.length - ([47, cmd, (addr >>> 8) &&& 255, addr &&& 255,
      fourWayCountByte params] : List Nat).length = params.length by
        simp only [List.length_cons, List.length_nil]; omega]
    rw [getD_append_right_len _ _ _ (by omega)]
    rw [show params.length - params.length = 0 by omega]
    rfl
  have hchk6 : ([47, cmd, (addr >>> 8) &&& 255, addr &&& 255, fourWayCountByte params]
      ++ (params
        ++ [ack, (crc16_xmodem (fourWayResponseBody cmd addr params ack) >>> 8) &&& 255,
            crc16_xmodem (fourWayResponseBody cmd addr params ack) &&& 255])).getD
        (6 + params.length) 0
      = (crc16_xmodem (fourWayResponseBody cmd addr params ack) >>> 8) &&& 255 := by
    rw [getD_append_right_len _ _ _ (by simp only [List.length_cons, List.length_nil]; omega)]
    rw [show 6 + params.length - ([47, cmd, (addr >>> 8) &&& 255, addr &&& 255,
      fourWayCountByte params] : List Nat).length = params.length + 1 by
        simp only [List.length_cons, List.length_nil]; omega]
    rw [getD_append_right_len _ _ _ (by omega)]
    rw [show params.length + 1 - params.length = 1 by omega]
    rfl
  have hchk7 : ([47, cmd, (addr >>> 8) &&& 255, addr &&& 255, fourWayCountByte params]
      ++ (params
        ++ [ack, (crc16_xmodem (fourWayResponseBody cmd addr params ack) >>> 8) &&& 255,
            crc16_xmodem (fourWayResponseBody cmd addr params ack) &&& 255])).getD
        (7 + params.length) 0
      = crc16_xmodem (fourWayResponseBody cmd addr params ack) &&& 255 := by
    rw [getD_append_right_len _ _ _ (by simp only [List.length_cons, List.length_nil]; omega)]
    rw [show 7 + params.length - ([47, cmd, (addr >>> 8) &&& 255, addr &&& 255,
      fourWayCountByte params] : List Nat).length = params.length + 2 by
        simp only [List.length_cons, List.length_nil]; omega]
    rw [getD_append_right_len _ _ _ (by omega)]
    rw [show params.length + 2 - params.length = 2 by omega]
    rfl
  have hparams : (([47, cmd, (addr >>> 8) &&& 255, addr &&& 255, fourWayCountByte params]
      ++ (params
        ++ [ack, (crc16_xmodem (fourWayResponseBody cmd addr params ack) >>> 8) &&& 255,
            crc16_xmodem (fourWayResponseBody cmd addr params ack) &&& 255])).drop 5).take
        params.length = params := by
    rw [List.drop_left' (by simp)]
    rw [List.take_append_of_le_length (by simp)]
    simp
  have htake : ([47, cmd, (addr >>> 8) &&& 255, addr &&& 255, fourWayCountByte params]
      ++ (params
        ++ [ack, (crc16_xmodem (fourWayResponseBody cmd addr params ack) >>> 8) &&& 255,
            crc16_xmodem (fourWayResponseBody cmd addr params ack) &&& 255])).take
        (6 + params.length) = fourWayResponseBody cmd addr params ack := by
    rw [show 6 + params.length = ([47, cmd, (addr >>> 8) &&& 255, addr &&& 255,
      fourWayCountByte params] : List Nat).length + (params.length + 1) by
        simp only [List.length_cons, List.length_nil]; omega]
    rw [List.take_append]
    rw [show params.length + 1 = params.length + 1 from rfl]
    rw [List.take_append_eq_append_take]
    rw [List.take_of_length_le (by omega)]
    rw [show params.length + 1 - params.length = 1 by omega]
    simp [fourWayResponseBody]
  rw [hcmd1, haddr2, haddr3, hack, hchk6, hchk7, hparams, htake]
  rw [combine16 addr haddr, combine16 _ (crc16_lt _)]
  rw [if_neg (by simp)]

lemma fourWayRequestFrame_shape (cmd addr : Nat) (params : List Nat) :
    fourWayRequestFrame cmd addr params
      = [47, cmd, (addr >>> 8) &&& 255, addr &&& 255, fourWayCountByte params]
        ++ (params
          ++ [(crc16_xmodem (fourWayRequestBody cmd addr params) >>> 8) &&& 255,
              crc16_xmodem (fourWayRequestBody cmd addr params) &&& 255]) := by
  simp [fourWayRequestFrame, fourWayRequestBody]

/-- A request frame (which carries no ack byte) is one byte shorter than
the response format the decoder expects, so decoding it always fails the
length checks. -/
lemma processFourWayResponse_requestFrame (cmd addr : Nat) (params : List Nat)
    (h1 : 1 ≤ params.length) (h2 : params.length ≤ 256) :
    processFourWayResponse (fourWayRequestFrame cmd addr params) = none := by
  rw [fourWayRequestFrame_shape]
  have hlen : ([47, cmd, (addr >>> 8) &&& 255, addr &&& 255, fourWayCountByte params]
      ++ (params
        ++ [(crc16_xmodem (fourWayRequestBody cmd addr params) >>> 8) &&& 255,
            crc16_xmodem (fourWayRequestBody cmd addr params) &&& 255])).length
      = 7 + params.length := by
    simp
    omega
  simp only [processFourWayResponse]
  rw [hlen]
  by_cases h9 : 7 + params.length < 9
  · rw [if_pos h9]
  · rw [if_neg h9]
    rw [fourWayParamCount_header cmd addr params _ h1 h2]
    rw [if_pos (by omega : 7 + params.length < 8 + params.length)]

/-! ## Reliable command channel (`send_four_way_command`)

The retry loop is embedded with the per-attempt raw response supplied by a
function `responses : Nat → List Nat` (attempt index → bytes read), and the
transmitted frames accumulated in a list.  The result is
`(frames written, final params list, returned value)`; the final params
list is returned because the Python loop mutates the caller's `params`
list in place (the empty-list coercion `params.append(0)`).

The Python body checks `if len(params) == 0` (coerce) / `elif
len(params) > 256` (return None); the two conditions are mutually
exclusive, so testing the overflow first is equivalent. -/

def sendFourWayAux (cmd addr : Nat) (responses : Nat → List Nat) :
    Nat → Nat → List Nat → List (List Nat) →
      List (List Nat) × List Nat × Option FourWayMsg
  | 0, _, params, sent => (sent, params, none)
  | remaining + 1, attempt, params, sent =>
    if params.length > 256 then (sent, params, none)
    else
      let p := if params.length = 0 then params ++ [0] else params
      let frame := fourWayRequestFrame cmd addr p
      match processFourWayResponse (responses attempt) with
      | some m =>
        if m.ack = 0 then (sent ++ [frame], p, some m)
        else sendFourWayAux cmd addr responses remaining (attempt + 1) p (sent ++ [frame])
      | none => sendFourWayAux cmd addr responses remaining (attempt + 1) p (sent ++ [frame])

/-- `send_four_way_command(command, params, address, retries)` over a
transport whose successive reads return `responses 0`, `responses 1`, .... -/
def sendFourWay (cmd : Nat) (params : List Nat) (addr retries : Nat)
    (responses : Nat → List Nat) : List (List Nat) × List Nat × Option FourWayMsg :=
  sendFourWayAux cmd addr responses retries 0 params []

/-- An attempt whose raw response fails: decoding fails, or the decoded
ack differs from `ACK_OK` (0). -/
def fourWayAttemptFails (raw : List Nat) : Prop :=
  ∀ m : FourWayMsg, processFourWayResponse raw = some m → m.ack ≠ 0

lemma sendFourWayAux_all_fail (cmd addr : Nat) (responses : Nat → List Nat) :
    ∀ (remaining attempt : Nat) (params : List Nat) (sent : List (List Nat)),
    1 ≤ params.length → params.length ≤ 256 →
    (∀ i, fourWayAttemptFails (responses i)) →
    sendFourWayAux cmd addr responses remaining attempt params sent
      = (sent ++ List.replicate remaining (fourWayRequestFrame cmd addr params),
         params, none) := by
  intro remaining
  induction remaining with
  | zero => intro attempt params sent _ _ _; simp [sendFourWayAux]
  | succ r ih =>
    intro attempt params sent h1 h2 hfail
    have h256 : ¬ params.length > 256 := by omega
    have hp0 : ¬ params.length = 0 := by omega
    have hrep : sent ++ [fourWayRequestFrame cmd addr params]
        ++ List.replicate r (fourWayRequestFrame cmd addr params)
        = sent ++ List.replicate (r + 1) (fourWayRequestFrame cmd addr params) := by
      rw [List.append_assoc, List.replicate_succ]
      rfl
    cases hm : processFourWayResponse (responses attempt) with
    | none =>
      simp only [sendFourWayAux, h256, hp0, if_false, hm]
      rw [ih (attempt + 1) params (sent ++ [fourWayRequestFrame cmd addr params]) h1 h2 hfail]
      rw [hrep]
    | some m =>
      have hack : ¬ m.ack = 0 := hfail attempt m hm
      simp only [sendFourWayAux, h256, hp0, if_false, hm, hack]
      rw [ih (attempt + 1) params (sent ++ [fourWayRequestFrame cmd addr params]) h1 h2 hfail]
      rw [hrep]

lemma sendFourWayAux_succeeds_at (cmd addr : Nat) (responses : Nat → List Nat)
    (m : FourWayMsg) :
    ∀ (i remaining attempt : Nat) (params : List Nat) (sent : List (List Nat)),
    i < remaining → 1 ≤ params.length → params.length ≤ 256 →
    (∀ j, j < i → fourWayAttemptFails (responses (attempt + j))) →
    processFourWayResponse (responses (attempt + i)) = some m → m.ack = 0 →
    sendFourWayAux cmd addr responses remaining attempt params sent
      = (sent ++ List.replicate (i + 1) (fourWayRequestFrame cmd addr params),
         params, some m) := by
  intro i
  induction i with
  | zero =>
    intro remaining attempt params sent hir h1 h2 _ hsucc hackOk
    rcases remaining with _ | r
    · omega
    · have h256 : ¬ params.length > 256 := by omega
      have hp0 : ¬ params.length = 0 := by omega
      rw [show attempt + 0 = attempt by omega] at hsucc
      simp only [sendFourWayAux, h256, hp0, if_false, hsucc, hackOk, if_pos]
      rfl
  | succ i ih =>
    intro remaining attempt params sent hir h1 h2 hfails hsucc hackOk
    rcases remaining with _ | r
    · omega
    · have h256 : ¬ params.length > 256 := by omega
      have hp0 : ¬ params.length = 0 := by omega
      have hfail0 : fourWayAttemptFails (responses attempt) := by
        have := hfails 0 (by omega)
        rwa [show attempt + 0 = attempt by omega] at this
      have hrep : sent ++ [fourWayRequestFrame cmd addr params]
          ++ List.replicate (i + 1) (fourWayRequestFrame cmd addr params)
          = sent ++ List.replicate (i + 1 + 1) (fourWayRequestFrame cmd addr params) := by
        rw [List.append_assoc, List.replicate_succ]
        rfl
      have hstep : sendFourWayAux cmd addr responses r (attempt + 1) params
          (sent ++ [fourWayRequestFrame cmd addr params])
          = (sent ++ [fourWayRequestFrame cmd addr params]
              ++ List.replicate (i + 1) (fourWayRequestFrame cmd addr params),
             params, some m) := by
        apply ih r (attempt + 1) params _ (by omega) h1 h2
        · intro j hj
          have := hfails (j + 1) (by omega)
          rwa [show attempt + (j + 1) = attempt + 1 + j by omega] at this
        · rwa [show attempt + 1 + i = attempt + (i + 1) by omega]
        · exact hackOk
      cases hm : processFourWayResponse (responses attempt) with
      | none =>
        simp only [sendFourWayAux, h256, hp0, if_false, hm]
        rw [hstep, hrep]
      | some m0 =>
        have hack0 : ¬ m0.ack = 0 := hfail0 m0 hm
        simp only [sendFourWayAux, h256, hp0, if_false, hm, hack0]
        rw [hstep, hrep]

lemma sendFourWayAux_params_invariant (cmd addr : Nat) (responses : Nat → List Nat) :
    ∀ (remaining attempt : Nat) (params : List Nat) (sent : List (List Nat)),
    1 ≤ params.length → params.length ≤ 256 →
    (sendFourWayAux cmd addr responses remaining attempt params sent).2.1 = params := by
  intro remaining
  induction remaining with
  | zero => intro attempt params sent _ _; simp [sendFourWayAux]
  | succ r ih =>
    intro attempt params sent h1 h2
    have h256 : ¬ params.length > 256 := by omega
    have hp0 : ¬ params.length = 0 := by omega
    cases hm : processFourWayResponse (responses attempt) with
    | none =>
      simp only [sendFourWayAux, h256, hp0, if_false, hm]
      exact ih (attempt + 1) params (sent ++ [fourWayRequestFrame cmd addr params]) h1 h2
    | some m =>
      by_cases hack : m.ack = 0
      · simp only [sendFourWayAux, h256, hp0, if_false, hm, hack, if_pos]
      · simp only [sendFourWayAux, h256, hp0, if_false, hm, hack]
        exact ih (attempt + 1) params (sent ++ [fourWayRequestFrame cmd addr params]) h1 h2

lemma sendFourWayAux_sent_prefix (cmd addr : Nat) (responses : Nat → List Nat) :
    ∀ (remaining attempt : Nat) (params : List Nat) (sent : List (List Nat)),
    ∃ tail, (sendFourWayAux cmd addr responses remaining attempt params sent).1
      = sent ++ tail := by
  intro remaining
  induction remaining with
  | zero => intro attempt params sent; exact ⟨[], by simp [sendFourWayAux]⟩
  | succ r ih =>
    intro attempt params sent
    by_cases h256 : params.length > 256
    · exact ⟨[], by simp [sendFourWayAux, h256]⟩
    · cases hm : processFourWayResponse (responses attempt) with
      | none =>
        rcases ih (attempt + 1) (if params.length = 0 then params ++ [0] else params)
          (sent ++ [fourWayRequestFrame cmd addr
            (if params.length = 0 then params ++ [0] else params)]) with ⟨tail, htail⟩
        refine ⟨[fourWayRequestFrame cmd addr
          (if params.length = 0 then params ++ [0] else params)] ++ tail, ?_⟩
        simp only [sendFourWayAux, h256, if_false, hm]
        rw [htail, List.append_assoc]
      | some m =>
        by_cases hack : m.ack = 0
        · refine ⟨[fourWayRequestFrame cmd addr
            (if params.length = 0 then params ++ [0] else params)], ?_⟩
          simp only [sendFourWayAux, h256, if_false, hm, hack, if_pos]
        · rcases ih (attempt + 1) (if params.length = 0 then params ++ [0] else params)
            (sent ++ [fourWayRequestFrame cmd addr
              (if params.length = 0 then params ++ [0] else params)]) with ⟨tail, htail⟩
          refine ⟨[fourWayRequestFrame cmd addr
            (if params.length = 0 then params ++ [0] else params)] ++ tail, ?_⟩
          simp only [sendFourWayAux, h256, if_false, hm, hack]
          rw [htail, List.append_assoc]

/-- Passing an empty parameter list is, from the first attempt onward,
identical to passing `[0]`: the loop body coerces `params` to `[0]`
before building the frame. -/
lemma sendFourWay_nil_coerce (cmd addr : Nat) (n : Nat) (responses : Nat → List Nat)
    (hn : 1 ≤ n) :
    sendFourWay cmd [] addr n responses = sendFourWay cmd [0] addr n responses := by
  rcases n with _ | r
  · omega
  · simp [sendFourWay, sendFourWayAux]

/-- C5: with every attempt failing (decode failure or non-OK ack),
`send_four_way_command` performs exactly `retries` transmissions — never
fewer, never more — and returns `None`; and an attempt succeeds exactly
when decoding succeeds and the ack equals `ACK_OK`: the first such attempt
(index `i`, all earlier ones failing) stops the loop after `i + 1`
transmissions and returns the decoded frame. -/
theorem fourWay_retry_bound
    (cmd addr : Nat) (params : List Nat) (n : Nat) (responses : Nat → List Nat) :
    (1 ≤ n → params.length ≤ 256 → (∀ i, fourWayAttemptFails (responses i)) →
      (sendFourWay cmd params addr n responses).1.length = n ∧
      (sendFourWay cmd params addr n responses).2.2 = none) ∧
    (∀ i m, i < n → params.length ≤ 256 →
      (∀ j, j < i → fourWayAttemptFails (responses j)) →
      processFourWayResponse (responses i) = some m → m.ack = 0 →
      (sendFourWay cmd params addr n responses).1.length = i + 1 ∧
      (sendFourWay cmd params addr n responses).2.2 = some m) := by
  constructor
  · intro hn h256 hfail
    by_cases hp : params.length = 0
    · have hpnil : params = [] := List.length_eq_zero.mp hp
      subst hpnil
      rw [sendFourWay_nil_coerce cmd addr n responses hn]
      unfold sendFourWay
      rw [sendFourWayAux_all_fail cmd addr responses n 0 [0] [] (by simp) (by simp) hfail]
      simp
    · unfold sendFourWay
      rw [sendFourWayAux_all_fail cmd addr responses n 0 params [] (by omega) h256 hfail]
      simp
  · intro i m hi h256 hfails hsucc hack
    by_cases hp : params.length = 0
    · have hpnil : params = [] := List.length_eq_zero.mp hp
      subst hpnil
      rw [sendFourWay_nil_coerce cmd addr n responses (by omega)]
      unfold sendFourWay
      rw [sendFourWayAux_succeeds_at cmd addr responses m i n 0 [0] [] hi (by simp) (by simp)
        (by intro j hj; simpa using hfails j hj) (by simpa using hsucc) hack]
      simp
    · unfold sendFourWay
      rw [sendFourWayAux_succeeds_at cmd addr responses m i n 0 params [] hi (by omega) h256
        (by intro j hj; simpa using hfails j hj) (by simpa using hsucc) hack]
      simp

/-- Witness for C5: a transport that always returns nothing (decode
failure) with 2 retries: exactly 2 transmissions and `None`. -/
theorem fourWay_retry_bound_witness :
    (sendFourWay 0x37 [1] 0 2 (fun _ => [])).1.length = 2 ∧
    (sendFourWay 0x37 [1] 0 2 (fun _ => [])).2.2 = none :=
  (fourWay_retry_bound 0x37 0 [1] 2 (fun _ => [])).1 (by norm_num) (by norm_num)
    (fun _ m h => by simp [processFourWayResponse] at h)

/-- C10: `send_four_way_command` called with an empty params list mutates
the caller's list in place: after the call the list holds exactly `[0]`
(the final value of the threaded `params` state). -/
theorem fourWay_empty_params_mutated
    (cmd addr n : Nat) (responses : Nat → List Nat) (hn : 1 ≤ n) :
    (sendFourWay cmd [] addr n responses).2.1 = [0] := by
  rw [sendFourWay_nil_coerce cmd addr n responses hn]
  unfold sendFourWay
  exact sendFourWayAux_params_invariant cmd addr responses n 0 [0] [] (by simp) (by simp)

/-- Witness for C10 at concrete arguments (default retries 3). -/
theorem fourWay_empty_params_mutated_witness :
    (sendFourWay 0x30 [] 0 3 (fun _ => [])).2.1 = [0] :=
  fourWay_empty_params_mutated 0x30 0 3 (fun _ => []) (by norm_num)

/-- C1 counterexample: decoding the encoder's own frame fails — at
command 0x30, address 0, params `[1]` the round trip yields `None`, not
the original command/address/params. -/
theorem fourWay_roundtrip_counterexample :
    processFourWayResponse (fourWayRequestFrame 0x30 0 [1]) = none := by
  decide

/-- C1 (amended): the request frame built by `send_four_way_command`
carries no ack byte, so it is one byte shorter than the response format
and `process_four_way_response` returns `None` on it for every command,
address, and parameter list of length 1–256 — there is no encode/decode
round trip between these two functions.  Appending an ack byte and
recomputing the CRC over sentinel-through-ack (the response wire format
the decoder consumes) does decode back to exactly the same command,
address and parameters; with the empty list coerced to `[0]`, the
resulting frame decodes as the single-parameter list `[0]`. -/
theorem fourWay_encode_decode
    (cmd addr ack : Nat) (params : List Nat)
    (h1 : 1 ≤ params.length) (h2 : params.length ≤ 256) (haddr : addr < 65536) :
    processFourWayResponse (fourWayRequestFrame cmd addr params) = none ∧
    (processFourWayResponse (fourWayResponseFrame cmd addr params ack)).map
        (fun m => (m.command, m.address, m.params)) = some (cmd, addr, params) ∧
    (processFourWayResponse (fourWayResponseFrame cmd addr [0] ack)).map
        (fun m => m.params) = some [0] :=
  ⟨processFourWayResponse_requestFrame cmd addr params h1 h2,
   by rw [processFourWayResponse_responseFrame cmd addr ack params h1 h2 haddr]; rfl,
   by rw [processFourWayResponse_responseFrame cmd addr ack [0] (by simp) (by simp) haddr]; rfl⟩

/-- Witness for C1's amended theorem at concrete inputs. -/
theorem fourWay_encode_decode_witness :
    processFourWayResponse (fourWayRequestFrame 0x30 0x1234 [5, 6]) = none ∧
    (processFourWayResponse (fourWayResponseFrame 0x30 0x1234 [5, 6] 0)).map
        (fun m => (m.command, m.address, m.params)) = some (0x30, 0x1234, [5, 6]) ∧
    (processFourWayResponse (fourWayResponseFrame 0x30 0x1234 [0] 0)).map
        (fun m => m.params) = some [0] :=
  fourWay_encode_decode 0x30 0x1234 0 [5, 6] (by norm_num) (by norm_num) (by norm_num)

/-- C6: the encoder coerces an empty list to `[0]` before building the
frame (the first transmitted frame is the `[0]` frame); the count byte at
offset 4 is the parameter length for 1–255 and 0 for length 256; a
parameter list longer than 256 makes `send_four_way_command` return
`None` without transmitting anything; and the decoder substitutes 256 for
a count byte of 0, reconstructing exactly 256 parameters from a
well-formed 256-parameter frame. -/
theorem fourWay_param_count_encoding (cmd addr : Nat) (responses : Nat → List Nat) :
    (∀ n, 1 ≤ n →
      (sendFourWay cmd [] addr n responses).1.headD [] = fourWayRequestFrame cmd addr [0]) ∧
    (∀ params : List Nat, 1 ≤ params.length → params.length ≤ 255 →
      (fourWayRequestFrame cmd addr params).getD 4 0 = params.length) ∧
    (∀ params : List Nat, params.length = 256 →
      (fourWayRequestFrame cmd addr params).getD 4 0 = 0) ∧
    (∀ params : List Nat, ∀ n, params.length > 256 →
      sendFourWay cmd params addr n responses = ([], params, none)) ∧
    (∀ params : List Nat, ∀ ack, params.length = 256 → addr < 65536 →
      (processFourWayResponse (fourWayResponseFrame cmd addr params ack)).map
          (fun m => m.params) = some params) := by
  refine ⟨?_, ?_, ?_, ?_, ?_⟩
  · intro n hn
    rcases n with _ | r
    · omega
    · cases hm : processFourWayResponse (responses 0) with
      | none =>
        simp only [sendFourWay, sendFourWayAux, List.length_nil, List.nil_append, hm]
        norm_num
        rcases sendFourWayAux_sent_prefix cmd addr responses r 1 [0]
          [fourWayRequestFrame cmd addr [0]] with ⟨tail, htail⟩
        rw [htail]
        simp
      | some m =>
        by_cases hack : m.ack = 0
        · simp only [sendFourWay, sendFourWayAux, List.length_nil, List.nil_append, hm, hack]
          norm_num
        · simp only [sendFourWay, sendFourWayAux, List.length_nil, List.nil_append, hm, hack]
          norm_num
          rcases sendFourWayAux_sent_prefix cmd addr responses r 1 [0]
            [fourWayRequestFrame cmd addr [0]] with ⟨tail, htail⟩
          rw [htail]
          simp
  · intro params h1 h255
    rw [fourWayRequestFrame_shape]
    rw [getD_append_left_len _ _ 4 (by simp)]
    show fourWayCountByte params = params.length
    unfold fourWayCountByte
    rw [if_pos (by omega)]
  · intro params h256
    rw [fourWayRequestFrame_shape]
    rw [getD_append_left_len _ _ 4 (by simp)]
    show fourWayCountByte params = 0
    unfold fourWayCountByte
    rw [if_neg (by omega)]
  · intro params n h
    rcases n with _ | r
    · simp [sendFourWay, sendFourWayAux]
    · simp [sendFourWay, sendFourWayAux, h]
  · intro params ack h256 haddr
    rw [processFourWayResponse_responseFrame cmd addr ack params (by omega) (by omega) haddr]
    rfl

/-- Witness for C6 at concrete inputs (256- and 257-parameter lists). -/
theorem fourWay_param_count_encoding_witness :
    (sendFourWay 0x3A [] 0 3 (fun _ => [])).1.headD [] = fourWayRequestFrame 0x3A 0 [0] ∧
    (fourWayRequestFrame 0x3A 0 [1, 2]).getD 4 0 = 2 ∧
    (fourWayRequestFrame 0x3A 0 (List.replicate 256 7)).getD 4 0 = 0 ∧
    sendFourWay 0x3A (List.replicate 257 7) 0 3 (fun _ => [])
      = ([], List.replicate 257 7, none) ∧
    (processFourWayResponse (fourWayResponseFrame 0x3A 0 (List.replicate 256 7) 0)).map
        (fun m => m.params) = some (List.replicate 256 7) :=
  ⟨(fourWay_param_count_encoding 0x3A 0 (fun _ => [])).1 3 (by norm_num),
   (fourWay_param_count_encoding 0x3A 0 (fun _ => [])).2.1 [1, 2] (by norm_num) (by norm_num),
   (fourWay_param_count_encoding 0x3A 0 (fun _ => [])).2.2.1 (List.replicate 256 7) (by simp),
   (fourWay_param_count_encoding 0x3A 0 (fun _ => [])).2.2.2.1 (List.replicate 257 7) 3
     (by simp),
   (fourWay_param_count_encoding 0x3A 0 (fun _ => [])).2.2.2.2 (List.replicate 256 7) 0
     (by simp) (by norm_num)⟩

/-- C7: `process_four_way_response` returns `None` (never a partial frame)
when the input has fewer than 9 bytes, or fewer than
`8 + parameter_count` bytes (count byte 0 meaning 256), or when the CRC16
recomputed over the bytes preceding the CRC field differs from the
frame's CRC field; and every returned frame's checksum field equals
`crc16_xmodem` of the bytes from the sentinel through the ack byte
(`data[:6 + param_count]`). -/
theorem fourWay_decoder_guards :
    (∀ data : List Nat, data.length < 9 → processFourWayResponse data = none) ∧
    (∀ data : List Nat, data.length < 8 + fourWayParamCount data →
      processFourWayResponse data = none) ∧
    (∀ data : List Nat,
      crc16_xmodem (data.take (6 + fourWayParamCount data))
        ≠ (data.getD (6 + fourWayParamCount data) 0 <<< 8)
            ||| data.getD (7 + fourWayParamCount data) 0 →
      processFourWayResponse data = none) ∧
    (∀ data m, processFourWayResponse data = some m →
      m.checksum = crc16_xmodem (data.take (6 + fourWayParamCount data))) := by
  refine ⟨?_, ?_, ?_, ?_⟩
  · intro data h
    simp only [processFourWayResponse]
    rw [if_pos h]
  · intro data h
    simp only [processFourWayResponse]
    by_cases h9 : data.length < 9
    · rw [if_pos h9]
    · rw [if_neg h9, if_pos h]
  · intro data hne
    simp only [processFourWayResponse]
    by_cases h9 : data.length < 9
    · rw [if_pos h9]
    · rw [if_neg h9]
      by_cases h8 : data.length < 8 + fourWayParamCount data
      · rw [if_pos h8]
      · rw [if_neg h8, if_pos hne]
  · intro data m h
    simp only [processFourWayResponse] at h
    split_ifs at h with h9 h8 hc
    injection h with h'
    rw [← h']
    exact (not_not.mp hc).symm

/-- Witness for C7: a short buffer, a truncated buffer, a CRC-corrupted
buffer, and the checksum field of a successfully decoded frame. -/
theorem fourWay_decoder_guards_witness :
    processFourWayResponse [47, 0, 0] = none ∧
    processFourWayResponse [47, 0, 0, 0, 5, 1, 2, 3, 4, 5] = none ∧
    processFourWayResponse [47, 0, 0, 0, 1, 9, 0, 0, 0] = none ∧
    ({ command := 1, address := 2, ack := 0,
       checksum := crc16_xmodem [47, 1, 0, 2, 1, 3, 0], params := [3] } : FourWayMsg).checksum
      = crc16_xmodem ((fourWayResponseFrame 1 2 [3] 0).take
          (6 + fourWayParamCount (fourWayResponseFrame 1 2 [3] 0))) :=
  ⟨fourWay_decoder_guards.1 [47, 0, 0] (by norm_num),
   fourWay_decoder_guards.2.1 [47, 0, 0, 0, 5, 1, 2, 3, 4, 5] (by decide),
   fourWay_decoder_guards.2.2.1 [47, 0, 0, 0, 1, 9, 0, 0, 0] (by decide),
   fourWay_decoder_guards.2.2.2 (fourWayResponseFrame 1 2 [3] 0)
     { command := 1, address := 2, ack := 0,
       checksum := crc16_xmodem [47, 1, 0, 2, 1, 3, 0], params := [3] } (by decide)⟩

/-! ## MSP payload decoder (`decode_response`)

The Python function returns formatted strings and stores fields in
`self.fc_response`; the embedding captures the decision structure and the
decoded values in an inductive result (string formatting and the `/10.0`,
`/100.0` float presentations are kept as the raw integer values —
decivolts and centiamps).  The FC-variant branch compares the ASCII bytes
directly instead of going through `bytes.decode('ascii')`. -/

inductive MspDecoded where
  | invalid : MspDecoded
  | incompleteApiVersion : MspDecoded
  | apiVersion (protocolVersion major minor : Nat) : MspDecoded
  | fcVariant (variant : String) : MspDecoded
  | incompleteBatteryState : MspDecoded
  | batteryState (cellCount capacity voltageDeciV drawn ampsCentiA : Nat) : MspDecoded
  | motorCountFromMotor (n : Nat) : MspDecoded
  | incompleteMotorConfig : MspDecoded
  | motorCountFromConfig (n : Nat) : MspDecoded
  | incompleteSetPassthrough : MspDecoded
  | passthroughStatus (s : Nat) : MspDecoded
  | unknownCommand (cmd : Nat) (data : List Nat) : MspDecoded

deriving instance DecidableEq for MspDecoded

/-- The MSP_MOTOR branch: count of positive 2-byte little-endian values
over the payload, stepping by 2 (`int.from_bytes(data[i:i+2], 'little')`;
a trailing single byte forms a 1-byte value). -/
def motorCount : List Nat → Nat
  | [] => 0
  | [b] => if 0 < b then 1 else 0
  | b0 :: b1 :: rest => (if 0 < b0 + 256 * b1 then 1 else 0) + motorCount rest

/-- `decode_response(parsed_response)`.  Command ids:
MSP_API_VERSION = 1, MSP_FC_VARIANT = 2, MSP_BATTERY_STATE = 0x82,
MSP_MOTOR = 0x68, MSP_MOTOR_CONFIG = 0x83, MSP_SET_PASSTHROUGH = 0xF5. -/
def decodeResponse : Option (Nat × List Nat) → MspDecoded
  | none => .invalid
  | some (command, data) =>
    if command = 0x01 then
      if data.length < 3 then .incompleteApiVersion
      else .apiVersion (data.getD 0 0) (data.getD 1 0) (data.getD 2 0)
    else if command = 0x02 then
      if data = [66, 84, 70, 76] then .fcVariant "BETAFLIGHT"
      else if data = [75, 73, 83, 83] then .fcVariant "KISS"
      else if data = [73, 78, 65, 86] then .fcVariant "INAV"
      else if data = [65, 82, 68, 85] then .fcVariant "ARDUPILOT"
      else .fcVariant "UNKNOWN"
    else if command = 0x82 then
      if data.length < 8 then .incompleteBatteryState
      else .batteryState (data.getD 0 0)
        (data.getD 1 0 + 256 * data.getD 2 0)
        (data.getD 3 0)
        (data.getD 4 0 + 256 * data.getD 5 0)
        (data.getD 6 0 + 256 * data.getD 7 0)
    else if command = 0x68 then
      .motorCountFromMotor (motorCount data)
    else if command = 0x83 then
      if data.length < 7 then .incompleteMotorConfig
      else .motorCountFromConfig (data.getD 6 0)
    else if command = 0xF5 then
      if data.length < 1 then .incompleteSetPassthrough
      else .passthroughStatus (data.getD 0 0)
    else .unknownCommand command data

/-- C8: for every recognized command carrying an explicit minimum payload
length (API_VERSION needs 3 bytes, BATTERY_STATE 8, MOTOR_CONFIG 7,
SET_PASSTHROUGH 1), a shorter payload yields the structured "incomplete"
indicator — never an exception (the embedding is total); and every
unrecognized command id yields the generic "unknown command" result for
any payload. -/
theorem msp_decode_incomplete_and_unknown :
    (∀ data : List Nat, data.length < 3 →
      decodeResponse (some (0x01, data)) = .incompleteApiVersion) ∧
    (∀ data : List Nat, data.length < 8 →
      decodeResponse (some (0x82, data)) = .incompleteBatteryState) ∧
    (∀ data : List Nat, data.length < 7 →
      decodeResponse (some (0x83, data)) = .incompleteMotorConfig) ∧
    (∀ data : List Nat, data.length < 1 →
      decodeResponse (some (0xF5, data)) = .incompleteSetPassthrough) ∧
    (∀ cmd : Nat, ∀ data : List Nat,
      cmd ≠ 0x01 → cmd ≠ 0x02 → cmd ≠ 0x82 → cmd ≠ 0x68 → cmd ≠ 0x83 → cmd ≠ 0xF5 →
      decodeResponse (some (cmd, data)) = .unknownCommand cmd data) := by
  refine ⟨?_, ?_, ?_, ?_, ?_⟩
  · intro data h
    simp [decodeResponse, h]
  · intro data h
    simp [decodeResponse, h]
  · intro data h
    simp [decodeResponse, h]
  · intro data h
    simp [decodeResponse, h]
  · intro cmd data h1 h2 h3 h4 h5 h6
    simp [decodeResponse, h1, h2, h3, h4, h5, h6]

/-- Witness for C8 at concrete short payloads and an unknown command. -/
theorem msp_decode_incomplete_and_unknown_witness :
    decodeResponse (some (0x01, [7])) = .incompleteApiVersion ∧
    decodeResponse (some (0x82, [1, 2, 3])) = .incompleteBatteryState ∧
    decodeResponse (some (0x83, [])) = .incompleteMotorConfig ∧
    decodeResponse (some (0xF5, [])) = .incompleteSetPassthrough ∧
    decodeResponse (some (0x63, [1, 2])) = .unknownCommand 0x63 [1, 2] :=
  ⟨msp_decode_incomplete_and_unknown.1 [7] (by norm_num),
   msp_decode_incomplete_and_unknown.2.1 [1, 2, 3] (by norm_num),
   msp_decode_incomplete_and_unknown.2.2.1 [] (by norm_num),
   msp_decode_incomplete_and_unknown.2.2.2.1 [] (by norm_num),
   msp_decode_incomplete_and_unknown.2.2.2.2 0x63 [1, 2] (by norm_num) (by norm_num)
     (by norm_num) (by norm_num) (by norm_num) (by norm_num)⟩

/-! ## EEPROM record model (`EEPROM_STRUCT`, `parse_eeprom_data`)

`parse_eeprom_data` decodes a raw block field by field.  The
`firmware_name` field goes through `bytes.decode('ascii').strip('\x00')`
in Python: `decode('ascii')` raises `UnicodeDecodeError` as soon as any
byte of the field is ≥ 0x80, aborting the whole call, and on ASCII bytes
it is a byte-level bijection.  The embedding therefore makes the
per-field decode and the whole parse `Option`-valued — `none` models the
raised exception — keeps the field as its byte list when decoding
succeeds, and models the `strip` (which removes NUL bytes from BOTH
ends) directly on bytes. -/

/-- `EEPROM_STRUCT`: field name → byte offset, in source order. -/
def EEPROM_STRUCT : List (String × Nat) :=
  [("reserved_0", 0), ("eeprom_version", 1), ("reserved_1", 2),
   ("version_major", 3), ("version_minor", 4), ("firmware_name", 5),
   ("dir_reversed", 17), ("bi_direction", 18), ("use_sine_start", 19),
   ("comp_pwm", 20), ("variable_pwm", 21), ("stuck_rotor_protection", 22),
   ("advance_level", 23), ("pwm_frequency", 24), ("startup_power", 25),
   ("motor_kv", 26), ("motor_poles", 27), ("brake_on_stop", 28),
   ("stall_protection", 29), ("beep_volume", 30), ("telementry_on_interval", 31),
   ("servo_low_threshold", 32), ("servo_high_threshold", 33), ("servo_neutral", 34),
   ("servo_dead_band", 35), ("low_voltage_cut_off", 36), ("low_cell_volt_cutoff", 37),
   ("rc_car_reverse", 38), ("use_hall_sensors", 39),
   ("sine_mode_changeover_thottle_level", 40), ("drag_brake_strength", 41),
   ("driving_brake_strength", 42), ("limits_temperature", 43), ("limits_current", 44),
   ("sine_mode_power", 45), ("input_type", 46), ("auto_advance", 47), ("tune", 48),
   ("can_node", 176), ("esc_index", 177), ("require_arming", 178), ("telem_rate", 179),
   ("require_zero_throttle", 180), ("filter_hz", 181), ("debug_rate", 182),
   ("term_enable", 183), ("can_reserved", 184)]

/-- A decoded EEPROM field value: scalar byte, null-stripped ASCII bytes
(`firmware_name`), byte array (`tune`), or opaque block (`can_reserved`). -/
inductive EEValue where
  | scalar (b : Nat) : EEValue
  | str (bs : List Nat) : EEValue
  | arr (bs : List Nat) : EEValue
  | blob (bs : List Nat) : EEValue

deriving instance DecidableEq for EEValue

/-- The Python slice `data[a:a+len]`. -/
def eeSlice (data : List Nat) (a len : Nat) : List Nat := (data.drop a).take len

/-- `strip('\x00')`: remove NUL bytes from both ends. -/
def stripNulls (bs : List Nat) : List Nat :=
  (((bs.dropWhile (fun b => b == 0)).reverse).dropWhile (fun b => b == 0)).reverse

/-- One field of `parse_eeprom_data`'s loop body.  The `firmware_name`
branch returns `none` when any byte of the 12-byte slice is ≥ 0x80,
modelling the `UnicodeDecodeError` that `decode('ascii')` raises there;
the other branches never fail. -/
def decodeField (data : List Nat) (key : String) (a : Nat) : Option EEValue :=
  if key = "firmware_name" then
    if (eeSlice data a 12).all (fun b => decide (b < 128)) then
      some (.str (stripNulls (eeSlice data a 12)))
    else none
  else if key = "tune" then some (.arr (eeSlice data a 128))
  else if key = "can_reserved" then some (.blob (eeSlice data a 8))
  else some (.scalar (data.getD a 0))

/-- The field loop: a failing field decode (the raised exception) aborts
the whole call with `none`. -/
def parseFields (data : List Nat) : List (String × Nat) → Option (List (String × EEValue))
  | [] => some []
  | kv :: rest =>
    match decodeField data kv.1 kv.2, parseFields data rest with
    | some v, some tl => some ((kv.1, v) :: tl)
    | _, _ => none

/-- `parse_eeprom_data(data)`: decode every schema field; `none` when the
`firmware_name` ASCII decode raises. -/
def parse_eeprom_data (data : List Nat) : Option (List (String × EEValue)) :=
  parseFields data EEPROM_STRUCT

/-- Modelled from the spec: the per-field `encode(field_name, value,
schema)` inverse used when constructing a write payload is code of this
repository missing from the sources under verification (`main.py` calls
`reset_default_params` / `flash_esc_firmware`, which are absent from
`am32_config.py`), so it is modelled from §4.5 of the spec: scalar-u8 →
one byte; fixed-ascii-string → the ASCII bytes padded with trailing NULs
to the schema width (12); fixed-byte-array and opaque-block → the bytes
unchanged. -/
def encodeField : EEValue → List Nat
  | .scalar b => [b]
  | .str bs => bs ++ List.replicate (12 - bs.length) 0
  | .arr bs => bs
  | .blob bs => bs

/-- Re-encode a decoded record field by field, concatenating the fields
in schema order (the schema's offsets are contiguous). -/
def reencodeEeprom (fields : List (String × EEValue)) : List Nat :=
  (fields.map (fun kv => encodeField kv.2)).flatten

/-- Contiguous slices starting at `a` with the given widths. -/
def sliceJoin (l : List Nat) : Nat → List Nat → List Nat
  | _, [] => []
  | a, k :: ks => eeSlice l a k ++ sliceJoin l (a + k) ks

lemma eeSlice_append (l : List Nat) (a k m : Nat) :
    eeSlice l a (k + m) = eeSlice l a k ++ eeSlice l (a + k) m := by
  unfold eeSlice
  rw [List.take_add]
  congr 1
  rw [List.drop_drop]

lemma sliceJoin_eq (l : List Nat) : ∀ (ks : List Nat) (a : Nat),
    sliceJoin l a ks = eeSlice l a ks.sum := by
  intro ks
  induction ks with
  | nil => intro a; simp [sliceJoin, eeSlice]
  | cons k tl ih =>
    intro a
    simp only [sliceJoin, List.sum_cons]
    rw [ih (a + k), ← eeSlice_append]

lemma getD_eq_eeSlice (l : List Nat) (a : Nat) (h : a < l.length) :
    [l.getD a 0] = eeSlice l a 1 := by
  unfold eeSlice
  rw [List.drop_eq_getElem_cons h]
  have h2 : List.take 1 (l[a] :: List.drop (a + 1) l) = [l[a]] := rfl
  rw [h2]
  simp [List.getD_eq_getElem?_getD, List.getElem?_eq_getElem h]

/-- A 184-byte block whose `firmware_name` field is `00 41 00 ...` (a
leading NUL byte before the name). -/
def eeBlockA : List Nat := (List.replicate 184 0).set 6 65

/-- The same block with the name shifted left: `41 00 00 ...`. -/
def eeBlockB : List Nat := (List.replicate 184 0).set 5 65

/-- C9 counterexample: decode-then-re-encode does NOT reproduce every raw
block: `strip('\x00')` also removes leading NUL bytes of `firmware_name`,
so `eeBlockA` re-encodes to `eeBlockB`, not to itself; indeed the two
distinct blocks decode to the very same record, so no per-field encode
whatsoever can invert the decode on every block. -/
theorem eeprom_roundtrip_counterexample :
    (parse_eeprom_data eeBlockA).map reencodeEeprom ≠ some eeBlockA ∧
    parse_eeprom_data eeBlockA = parse_eeprom_data eeBlockB ∧
    eeBlockA ≠ eeBlockB := by
  refine ⟨by decide, by decide, by decide⟩

/-- C9 (amended): for a 184-byte raw block whose `firmware_name` field is
ASCII (every byte < 0x80, otherwise `decode('ascii')` raises and the
parse produces no record at all) and carries no leading NUL padding
(i.e. the field equals its NUL-stripped content followed by trailing NUL
padding — the layout the firmware writes), decoding with
`parse_eeprom_data` and re-encoding every field with its value unchanged
reproduces the original block byte-for-byte; a block with a byte ≥ 0x80
in that field makes `parse_eeprom_data` fail (the raised
`UnicodeDecodeError`), and on blocks with leading NULs the decode loses
information, so no encode can invert it on every block. -/
theorem eeprom_roundtrip (data : List Nat) (hlen : data.length = 184) :
    ((∀ b ∈ eeSlice data 5 12, b < 128) →
      eeSlice data 5 12
        = stripNulls (eeSlice data 5 12)
          ++ List.replicate (12 - (stripNulls (eeSlice data 5 12)).length) 0 →
      (parse_eeprom_data data).map reencodeEeprom = some data) ∧
    ((∃ b ∈ eeSlice data 5 12, 128 ≤ b) → parse_eeprom_data data = none) := by
  constructor
  case right =>
    intro hex
    have hnall : ¬ ((eeSlice data 5 12).all (fun b => decide (b < 128)) = true) := by
      rw [List.all_eq_true]
      rcases hex with ⟨b, hb, hge⟩
      intro hall
      have hb128 := hall b hb
      simp at hb128
      omega
    simp [parse_eeprom_data, parseFields, EEPROM_STRUCT, decodeField, hnall]
  case left =>
  intro hascii hfw
  have hall : (eeSlice data 5 12).all (fun b => decide (b < 128)) = true := by
    rw [List.all_eq_true]
    intro b hb
    simpa using hascii b hb
  have hs1 : ∀ a : Nat, a < 184 → eeSlice data a 1 = [data.getD a 0] :=
    fun a ha => (getD_eq_eeSlice data a (by omega)).symm
  have hsj : sliceJoin data 0
      [1, 1, 1, 1, 1, 12, 1, 1, 1, 1, 1, 1, 1, 1, 1, 1, 1, 1, 1, 1, 1, 1, 1, 1, 1,
       1, 1, 1, 1, 1, 1, 1, 1, 1, 1, 1, 1, 128, 1, 1, 1, 1, 1, 1, 1, 1, 8]
      = data := by
    rw [sliceJoin_eq]
    have hsum : List.sum
        [1, 1, 1, 1, 1, 12, 1, 1, 1, 1, 1, 1, 1, 1, 1, 1, 1, 1, 1, 1, 1, 1, 1, 1, 1,
         1, 1, 1, 1, 1, 1, 1, 1, 1, 1, 1, 1, 128, 1, 1, 1, 1, 1, 1, 1, 1, 8]
        = 192 := by decide
    rw [hsum]
    unfold eeSlice
    rw [List.drop_zero]
    exact List.take_of_length_le (by omega)
  conv_rhs => rw [← hsj]
  simp only [sliceJoin]
  norm_num
  rw [hs1 0 (by norm_num), hs1 1 (by norm_num), hs1 2 (by norm_num), hs1 3 (by norm_num),
    hs1 4 (by norm_num), hs1 17 (by norm_num), hs1 18 (by norm_num), hs1 19 (by norm_num),
    hs1 20 (by norm_num), hs1 21 (by norm_num), hs1 22 (by norm_num), hs1 23 (by norm_num),
    hs1 24 (by norm_num), hs1 25 (by norm_num), hs1 26 (by norm_num), hs1 27 (by norm_num),
    hs1 28 (by norm_num), hs1 29 (by norm_num), hs1 30 (by norm_num), hs1 31 (by norm_num),
    hs1 32 (by norm_num), hs1 33 (by norm_num), hs1 34 (by norm_num), hs1 35 (by norm_num),
    hs1 36 (by norm_num), hs1 37 (by norm_num), hs1 38 (by norm_num), hs1 39 (by norm_num),
    hs1 40 (by norm_num), hs1 41 (by norm_num), hs1 42 (by norm_num), hs1 43 (by norm_num),
    hs1 44 (by norm_num), hs1 45 (by norm_num), hs1 46 (by norm_num), hs1 47 (by norm_num),
    hs1 176 (by norm_num), hs1 177 (by norm_num), hs1 178 (by norm_num),
    hs1 179 (by norm_num), hs1 180 (by norm_num), hs1 181 (by norm_num),
    hs1 182 (by norm_num), hs1 183 (by norm_num)]
  rw [hfw]
  simp [reencodeEeprom, parse_eeprom_data, parseFields, EEPROM_STRUCT, decodeField,
    encodeField, hall]

/-- Witness for C9's amended theorem: the round trip on a concrete
ASCII, trailing-NUL-padded block, and the parse failure on an erased
(all-0xFF) block, where the source raises `UnicodeDecodeError`. -/
theorem eeprom_roundtrip_witness :
    (parse_eeprom_data eeBlockB).map reencodeEeprom = some eeBlockB ∧
    parse_eeprom_data (List.replicate 184 255) = none :=
  ⟨(eeprom_roundtrip eeBlockB (by decide)).1 (by decide) (by decide),
   (eeprom_roundtrip (List.replicate 184 255) (by decide)).2
     ⟨255, by decide, by norm_num⟩⟩
